import Mathlib

/-
Verification of the `reductor` crate: the Reductor contract (src/reductor.rs),
its composition combinators, and the concrete reduction strategies
(src/reductors/{sum,product,count,min_max}.rs), shallowly embedded in Lean.
Machine integers (usize) are modelled as Nat, with wraparound at 2 ^ 64 made
explicit where the code's overflow behaviour matters.
-/

namespace reductor

/-- The `Reductor` trait (src/reductor.rs, lines 36-63): a reduction strategy
over item type `A`, with intermediate state type `S` and result type `R`.
`new` builds the initial state from the first item, `reduce` threads the state
through each subsequent item, `into_result` projects the final state. -/
structure Reductor (A S R : Type) where
  new : A → S
  reduce : S → A → S
  into_result : S → R

variable {A A1 A2 S S1 S2 R R1 R2 : Type}

/-- Modelled from the spec: the run of a reductor on a non-empty sequence
`i1 :: rest` — `new` on the first item, `reduce` folded over the rest, then
`into_result` (spec section 4.1; the explicit-start entry point `fold_with` in
src/iter.rs omits the `into_result` projection and does not typecheck against
the stateful trait, so the driver is taken from the spec's words). -/
def Reductor.run (r : Reductor A S R) (i1 : A) (rest : List A) : R :=
  r.into_result (rest.foldl r.reduce (r.new i1))

/-- Modelled from the spec: the default-start entry point — fold `reduce` over
all the items starting from a default state, then call `into_result` (spec
section 6; `reduce_with` in src/iter.rs instead folds from `R::default()`, the
result type's default, and omits `into_result` — see the C3 analysis). -/
def Reductor.runFrom (r : Reductor A S R) (dflt : S) (items : List A) : R :=
  r.into_result (items.foldl r.reduce dflt)

/-- The optional adapter: `impl<R, A> Reductor<A> for Option<R>`
(src/reductor.rs, lines 77-97). State is `Option` of the wrapped state;
`reduce` turns an unset state into `R::new(item)` and otherwise delegates to
`R::reduce`; `into_result` maps `R::into_result` over the state. The unset
state `none` is the adapter's default (Rust `Option::default()` is `None`). -/
def optionReductor (r : Reductor A S R) : Reductor A (Option S) (Option R) where
  new := fun item => some (r.new item)
  reduce := fun state item =>
    some (match state with
      | none => r.new item
      | some s => r.reduce s item)
  into_result := fun state => state.map r.into_result

/-- The positional tuple combinator at arity 2: the `impl_reductor_for_tuple!`
instance `impl Reductor<(A1, A2)> for (R1, R2)` (src/reductor.rs, lines
99-142). Each position's `new`/`reduce`/`into_result` is applied to the
corresponding component of the item tuple and the state tuple. -/
def tupleReductor (r1 : Reductor A1 S1 R1) (r2 : Reductor A2 S2 R2) :
    Reductor (A1 × A2) (S1 × S2) (R1 × R2) where
  new := fun item => (r1.new item.1, r2.new item.2)
  reduce := fun state item => (r1.reduce state.1 item.1, r2.reduce state.2 item.2)
  into_result := fun state => (r1.into_result state.1, r2.into_result state.2)

/-- The replicated-pair result type `ReductorPair<R1, R2>(pub R1, pub R2)`
(src/reductor.rs, line 158). -/
structure ReductorPair (R1 R2 : Type) where
  fst : R1
  snd : R2

/-- The replicated-pair combinator: `impl<R1, R2, A> Reductor<A> for
ReductorPair<R1, R2> where A: Clone` (src/reductor.rs, lines 160-179). Every
incoming item is duplicated (Rust `clone`, a full-fidelity copy — the identity
on values) into both sub-reductors. -/
def reductorPairReductor (r1 : Reductor A S1 R1) (r2 : Reductor A S2 R2) :
    Reductor A (S1 × S2) (ReductorPair R1 R2) where
  new := fun item => (r1.new item, r2.new item)
  reduce := fun state item => (r1.reduce state.1 item, r2.reduce state.2 item)
  into_result := fun state => ⟨r1.into_result state.1, r2.into_result state.2⟩

/-- The `Sum` result type `Sum<T>(pub T)` (src/reductors/sum.rs). -/
structure Sum (T : Type) where
  val : T

/-- `impl<A, T> Reductor<A> for Sum<T>` (src/reductors/sum.rs, lines 20-37) at
`T = A = Int`: `new` is `once(item).sum()` (the item itself), `reduce` is
`once(state).chain(once(Self::new(item))).sum()` (state + item). -/
def sumReductor : Reductor Int Int (Sum Int) where
  new := fun item => item
  reduce := fun state item => state + item
  into_result := fun state => ⟨state⟩

/-- The natural default state of `Sum` over `Int`: `empty::<T>().sum()`
(src/reductors/sum.rs, lines 10-18), the empty sum, zero. -/
def sumStateDefault : Int := 0

/-- The `Product` result type `Product<T>(pub T)` (src/reductors/product.rs). -/
structure Product (T : Type) where
  val : T

/-- The `Product` state wrapper `struct State<T>(T)` (src/reductors/product.rs,
lines 10-11). -/
structure ProductState (T : Type) where
  val : T

/-- `impl<A, T> Reductor<A> for Product<T>` (src/reductors/product.rs, lines
38-55) at `T = A = Int`: `new` is `State(once(item).product())`, `reduce` is
`State(once(state.0).chain(once(Self::new(item).0)).product())`
(state * item). -/
def productReductor : Reductor Int (ProductState Int) (Product Int) where
  new := fun item => ⟨item⟩
  reduce := fun state item => ⟨state.val * item⟩
  into_result := fun state => ⟨state.val⟩

/-- The natural default state of `Product` over `Int`:
`State(empty::<T>().product())` (src/reductors/product.rs, lines 19-26), the
empty product, one. -/
def productStateDefault : ProductState Int := ⟨1⟩

/-- The `Count` result type `Count(pub usize)` (src/reductors/count.rs). -/
structure Count where
  val : Nat

/-- `impl<A> Reductor<A> for Count` (src/reductors/count.rs, lines 10-24):
state is `usize` (modelled as Nat — the claims about `Count` do not reach
`usize::MAX`); `new` ignores the item and returns 1, `reduce` ignores the item
and increments. -/
def countReductor (A : Type) : Reductor A Nat Count where
  new := fun _ => 1
  reduce := fun state _ => state + 1
  into_result := fun state => ⟨state⟩

/-- The natural default state of `Count`: its derived `Default` is
`Count(usize::default())`, i.e. a count of zero (src/reductors/count.rs,
line 7). -/
def countStateDefault : Nat := 0

/-- The maximum value of `usize` on the 64-bit targets the crate is built
for. -/
def USIZE_MAX : Nat := 2 ^ 64 - 1

/-- `CountNonZero::new` (src/reductors/count.rs, lines 51-53):
`NonZeroUsize::new(1).unwrap()`. The `NonZeroUsize` state is modelled by its
`get()` value. -/
def countNonZero_new : Nat := 1

/-- `CountNonZero::reduce` (src/reductors/count.rs, lines 55-57):
`(state.get() + 1).try_into().unwrap()`. The `usize` addition wraps at
`2 ^ 64` (release mode); `try_into` to `NonZeroUsize` fails exactly on zero,
and `unwrap` aborts the run (`none`) in that case. (In debug mode the addition
itself aborts at overflow; either way the run aborts exactly when the incoming
state is `usize::MAX`.) -/
def countNonZero_reduce (state : Nat) : Option Nat :=
  if (state + 1) % 2 ^ 64 = 0 then none else some ((state + 1) % 2 ^ 64)

/-- The state wrapper `NonEmptyState<T>(T)` (src/reductors/state.rs), which
pointedly has no default. -/
structure NonEmptyState (T : Type) where
  val : T

/-- The `Min` result type `Min<T>(pub T)` (src/reductors/min_max.rs, line 92,
via `impl_min_max!`). -/
structure Min (T : Type) where
  val : T

/-- The `Max` result type `Max<T>(pub T)` (src/reductors/min_max.rs, line 93,
via `impl_min_max!`). -/
structure Max (T : Type) where
  val : T

/-- `impl<T> Reductor<T> for Min<T> where T: Ord` (src/reductors/min_max.rs,
`impl_min_max_inner!` with `cmp::min`). -/
def minReductor (A : Type) [LinearOrder A] : Reductor A (NonEmptyState A) (Min A) where
  new := fun v => ⟨v⟩
  reduce := fun state item => ⟨min state.val item⟩
  into_result := fun state => ⟨state.val⟩

/-- `impl<T> Reductor<T> for Max<T> where T: Ord` (src/reductors/min_max.rs,
`impl_min_max_inner!` with `cmp::max`). -/
def maxReductor (A : Type) [LinearOrder A] : Reductor A (NonEmptyState A) (Max A) where
  new := fun v => ⟨v⟩
  reduce := fun state item => ⟨max state.val item⟩
  into_result := fun state => ⟨state.val⟩

/-- Modelled from the spec: `Reductors`, the replicated-pair combinator that
`minmax_impl_reductor!` (src/reductors/min_max.rs, lines 147-173) and lib.rs
refer to but whose definition is not under src/ — src/reductor.rs carries the
earlier `ReductorPair` name for the same combinator (spec section 9 notes the
`ReductorPair` vs `Reductors` renaming). It runs both reductors on every item,
duplicating the item into each (spec section 4.2, combinator 3). -/
def Reductors (r1 : Reductor A S1 R1) (r2 : Reductor A S2 R2) :
    Reductor A (S1 × S2) (R1 × R2) where
  new := fun item => (r1.new item, r2.new item)
  reduce := fun state item => (r1.reduce state.1 item, r2.reduce state.2 item)
  into_result := fun state => (r1.into_result state.1, r2.into_result state.2)

/-- The `MinMax` result type (src/reductors/min_max.rs, lines 176-182), with
`min` and `max` fields. -/
structure MinMax (T : Type) where
  min : T
  max : T

/-- `impl<A> Reductor<A> for MinMax<A> where A: Clone + Ord`
(src/reductors/min_max.rs, lines 184-189, via `minmax_impl_reductor!`):
delegates state, `new` and `reduce` to the pair `Reductors<(Min<A>, Max<A>)>`,
and `into_result` destructures the pair result into the `min`/`max` fields. -/
def minMaxReductor (A : Type) [LinearOrder A] :
    Reductor A (NonEmptyState A × NonEmptyState A) (MinMax A) where
  new := fun item => (Reductors (minReductor A) (maxReductor A)).new item
  reduce := fun state item => (Reductors (minReductor A) (maxReductor A)).reduce state item
  into_result := fun state =>
    ⟨((Reductors (minReductor A) (maxReductor A)).into_result state).1.val,
     ((Reductors (minReductor A) (maxReductor A)).into_result state).2.val⟩

/-- Folding the optional adapter's `reduce` from a set state stays set and
tracks the wrapped reductor's fold. -/
lemma option_foldl_some (r : Reductor A S R) (l : List A) (s : S) :
    List.foldl (optionReductor r).reduce (some s) l
      = some (List.foldl r.reduce s l) := by
  induction l generalizing s with
  | nil => rfl
  | cons a l ih => exact ih (r.reduce s a)

/-- C1: reducing zero items through the optional adapter (fold from the unset
default state, then `into_result`) yields `none`, and reducing a non-empty
sequence `i1 :: rest` yields `some` of the result the wrapped reductor itself
produces on that sequence (`new` on i1, `reduce` folded over the rest,
`into_result` at the end). -/
theorem optionAdapter_empty_and_nonEmpty (r : Reductor A S R) :
    (optionReductor r).runFrom none ([] : List A) = none ∧
      ∀ (i1 : A) (rest : List A),
        (optionReductor r).runFrom none (i1 :: rest) = some (r.run i1 rest) := by
  refine ⟨rfl, fun i1 rest => ?_⟩
  show ((optionReductor r).into_result
    (List.foldl (optionReductor r).reduce ((optionReductor r).reduce none i1) rest))
      = some (r.run i1 rest)
  have h1 : (optionReductor r).reduce none i1 = some (r.new i1) := rfl
  rw [h1, option_foldl_some]
  rfl

/-- C8: the optional adapter's `reduce` always returns a set state, whatever
the incoming state; hence the state folded from the unset default is unset
exactly on the empty sequence, and `into_result` yields `none` exactly then. -/
theorem optionAdapter_reduce_isSome (r : Reductor A S R) :
    (∀ (s : Option S) (a : A), ((optionReductor r).reduce s a).isSome = true) ∧
      ∀ items : List A,
        (List.foldl (optionReductor r).reduce none items = none ↔ items = []) ∧
          ((optionReductor r).runFrom none items = none ↔ items = []) := by
  refine ⟨fun s a => rfl, fun items => ?_⟩
  cases items with
  | nil => exact ⟨⟨fun _ => rfl, fun _ => rfl⟩, ⟨fun _ => rfl, fun _ => rfl⟩⟩
  | cons i1 rest =>
    have h1 : (optionReductor r).reduce none i1 = some (r.new i1) := rfl
    have h2 : List.foldl (optionReductor r).reduce none (i1 :: rest)
        = some (List.foldl r.reduce (r.new i1) rest) := by
      show List.foldl (optionReductor r).reduce ((optionReductor r).reduce none i1) rest
        = some (List.foldl r.reduce (r.new i1) rest)
      rw [h1, option_foldl_some]
    constructor
    · rw [h2]
      simp
    · show ((List.foldl (optionReductor r).reduce none (i1 :: rest)).map r.into_result
        = none ↔ i1 :: rest = [])
      rw [h2]
      simp

/-- C2 counterexample: for the `Sum` reductor over the integers and the
one-element sequence [1], folding `reduce` from `new(1)` over the remaining
items [] gives state 1, while folding `reduce` over the entire sequence [1]
starting from the state `new(1)` gives state 2: the two runs differ. -/
theorem newFold_ne_entireFold_from_new :
    ¬ (List.foldl sumReductor.reduce (sumReductor.new 1) ([] : List Int)
        = List.foldl sumReductor.reduce (sumReductor.new 1) ((1 : Int) :: [])) := by
  decide

/-- C2 (amended): for every reductor with a default state `D` satisfying
`reduce(D, i) = new(i)` for all items (as `Sum` over the integers with
`D = 0`), `new(i1)` folded with `reduce` over [i2,...,iN] produces the same
final state as folding `reduce` over the entire sequence [i1,...,iN] starting
from `D`. -/
theorem newFold_eq_entireFold_from_default (r : Reductor A S R) (D : S)
    (h : ∀ i : A, r.reduce D i = r.new i) (i1 : A) (rest : List A) :
    List.foldl r.reduce (r.new i1) rest = List.foldl r.reduce D (i1 :: rest) := by
  rw [List.foldl_cons, h i1]

/-- C2 witness: the amended equivalence at the `Sum` reductor over the
integers, default state 0, on the concrete sequence [3, 4, 5]. -/
theorem newFold_eq_entireFold_witness :
    List.foldl sumReductor.reduce (sumReductor.new 3) [4, 5]
      = List.foldl sumReductor.reduce sumStateDefault [(3 : Int), 4, 5] :=
  newFold_eq_entireFold_from_default sumReductor sumStateDefault
    (fun i => by simp [sumReductor, sumStateDefault]) 3 [4, 5]

/-- C3: evaluating the entry point the claim describes (fold `reduce` over the
items from the `State` default, then `into_result`) at the crate's own failing
test input: `[].iter().reduce_with::<Sum<f64>>()` (src/reductors/sum.rs,
`test_sum_borrowed`) expects `Sum`'s default, the empty sum zero, and a
non-empty run produces the sum of the items. `reduce_with` as written in
src/iter.rs instead folds from `R::default()` — the result type's default —
and returns the fold without calling `into_result`, which typechecks only when
`State = R`, a condition no reductor of the crate satisfies. -/
theorem reduce_with_intended_results :
    sumReductor.runFrom sumStateDefault [] = ⟨0⟩ ∧
      sumReductor.runFrom sumStateDefault [1, 2, 3] = ⟨6⟩ :=
  ⟨rfl, rfl⟩

/-- Folding the tuple combinator's `reduce` over a list of pairs runs each
position's fold on that position's projection of the list, independently. -/
lemma tuple_foldl (r1 : Reductor A1 S1 R1) (r2 : Reductor A2 S2 R2)
    (l : List (A1 × A2)) (s1 : S1) (s2 : S2) :
    List.foldl (tupleReductor r1 r2).reduce (s1, s2) l
      = (List.foldl r1.reduce s1 (l.map Prod.fst),
         List.foldl r2.reduce s2 (l.map Prod.snd)) := by
  induction l generalizing s1 s2 with
  | nil => rfl
  | cons p l ih => exact ih (r1.reduce s1 p.1) (r2.reduce s2 p.2)

/-- C4: the positional tuple combinator on a non-empty sequence of pairs
produces exactly the pair of the results each reductor produces alone on its
own position's item stream — no cross-talk between positions. -/
theorem tupleReductor_independent (r1 : Reductor A1 S1 R1) (r2 : Reductor A2 S2 R2)
    (p1 : A1 × A2) (rest : List (A1 × A2)) :
    (tupleReductor r1 r2).run p1 rest
      = (r1.run p1.1 (rest.map Prod.fst), r2.run p1.2 (rest.map Prod.snd)) := by
  show (tupleReductor r1 r2).into_result
      (List.foldl (tupleReductor r1 r2).reduce (r1.new p1.1, r2.new p1.2) rest) = _
  rw [tuple_foldl]
  rfl

/-- Folding the replicated-pair combinator's `reduce` over a list runs both
sub-folds on the same list, independently. -/
lemma pair_foldl (r1 : Reductor A S1 R1) (r2 : Reductor A S2 R2)
    (l : List A) (s1 : S1) (s2 : S2) :
    List.foldl (reductorPairReductor r1 r2).reduce (s1, s2) l
      = (List.foldl r1.reduce s1 l, List.foldl r2.reduce s2 l) := by
  induction l generalizing s1 s2 with
  | nil => rfl
  | cons a l ih => exact ih (r1.reduce s1 a) (r2.reduce s2 a)

/-- C5: the replicated-pair combinator `ReductorPair` on a non-empty plain
sequence produces exactly the pair of the results each reductor produces alone
on that same sequence; every step duplicates the incoming item into both
sub-reductors. -/
theorem reductorPair_fidelity (r1 : Reductor A S1 R1) (r2 : Reductor A S2 R2)
    (i1 : A) (rest : List A) :
    (reductorPairReductor r1 r2).run i1 rest
      = ⟨r1.run i1 rest, r2.run i1 rest⟩ := by
  show (reductorPairReductor r1 r2).into_result
      (List.foldl (reductorPairReductor r1 r2).reduce (r1.new i1, r2.new i1) rest) = _
  rw [pair_foldl]
  rfl

/-- C6: reducing the empty sequence from each reductor's natural default state
and projecting with `into_result` yields the documented identity result:
0 for `Sum`, 1 for `Product`, 0 for `Count`. -/
theorem identity_results :
    sumReductor.runFrom sumStateDefault [] = ⟨0⟩ ∧
      productReductor.runFrom productStateDefault [] = ⟨1⟩ ∧
      (countReductor Int).runFrom countStateDefault [] = ⟨0⟩ :=
  ⟨rfl, rfl, rfl⟩

/-- C7: for every reachable `CountNonZero` state (a `usize` value), `reduce`
aborts the run exactly when the incoming state is `usize::MAX`, and for every
smaller state it returns the incremented count, which is non-zero — it never
returns a "non-zero" value of zero. -/
theorem countNonZero_reduce_aborts_iff_max (state : Nat) (h : state ≤ USIZE_MAX) :
    (countNonZero_reduce state = none ↔ state = USIZE_MAX) ∧
      (state < USIZE_MAX →
        countNonZero_reduce state = some (state + 1) ∧ state + 1 ≠ 0) := by
  have hN : (2 : Nat) ^ 64 = 18446744073709551616 := by norm_num
  have hM : USIZE_MAX = 18446744073709551615 := by norm_num [USIZE_MAX]
  rw [hM] at h ⊢
  unfold countNonZero_reduce
  rw [hN]
  by_cases heq : state = 18446744073709551615
  · subst heq
    have h0 : (18446744073709551615 + 1) % 18446744073709551616 = 0 := by norm_num
    simp [h0]
  · have h1 : (state + 1) % 18446744073709551616 = state + 1 :=
      Nat.mod_eq_of_lt (by omega)
    rw [h1]
    have hne : state + 1 ≠ 0 := Nat.succ_ne_zero state
    simp [hne, heq]

/-- C7 witness: `CountNonZero::reduce` at the concrete states 5 (below the
maximum: increments to the non-zero 6) and `usize::MAX` (aborts). -/
theorem countNonZero_reduce_witness :
    countNonZero_reduce 5 = some 6 ∧ countNonZero_reduce USIZE_MAX = none :=
  ⟨((countNonZero_reduce_aborts_iff_max 5 (by decide)).2 (by decide)).1,
    (countNonZero_reduce_aborts_iff_max USIZE_MAX le_rfl).1.2 rfl⟩

/-- Folding the `MinMax` pair's `reduce` preserves the ordering of the two
state components: the running minimum stays at or below the running
maximum. -/
lemma minMax_foldl_le {A : Type} [LinearOrder A] (l : List A) (s1 s2 : A)
    (h : s1 ≤ s2) :
    (List.foldl (minMaxReductor A).reduce (⟨s1⟩, ⟨s2⟩) l).1.val
      ≤ (List.foldl (minMaxReductor A).reduce (⟨s1⟩, ⟨s2⟩) l).2.val := by
  induction l generalizing s1 s2 with
  | nil => exact h
  | cons a l ih =>
    have hstep : (minMaxReductor A).reduce (⟨s1⟩, ⟨s2⟩) a
        = ((⟨min s1 a⟩ : NonEmptyState A), (⟨max s2 a⟩ : NonEmptyState A)) := rfl
    show (List.foldl (minMaxReductor A).reduce ((minMaxReductor A).reduce (⟨s1⟩, ⟨s2⟩) a) l).1.val
      ≤ (List.foldl (minMaxReductor A).reduce ((minMaxReductor A).reduce (⟨s1⟩, ⟨s2⟩) a) l).2.val
    rw [hstep]
    exact ih (min s1 a) (max s2 a) (le_trans (min_le_right s1 a) (le_max_right s2 a))

/-- C9: on every non-empty sequence over a totally ordered type, the combined
`MinMax` reductor produces a result whose `min` field is less than or equal to
its `max` field. -/
theorem minMax_min_le_max {A : Type} [LinearOrder A] (i1 : A) (rest : List A) :
    ((minMaxReductor A).run i1 rest).min ≤ ((minMaxReductor A).run i1 rest).max := by
  show ((minMaxReductor A).into_result
      (List.foldl (minMaxReductor A).reduce ((⟨i1⟩ : NonEmptyState A), (⟨i1⟩ : NonEmptyState A)) rest)).min
    ≤ ((minMaxReductor A).into_result
      (List.foldl (minMaxReductor A).reduce ((⟨i1⟩ : NonEmptyState A), (⟨i1⟩ : NonEmptyState A)) rest)).max
  exact minMax_foldl_le rest i1 i1 (le_refl i1)

/-- Folding `Count`'s `reduce` adds the length of the list to the starting
count, whatever the items are. -/
lemma count_foldl (B : Type) (l : List B) (n : Nat) :
    List.foldl (countReductor B).reduce n l = n + l.length := by
  induction l generalizing n with
  | nil => rfl
  | cons b l ih =>
    show List.foldl (countReductor B).reduce (n + 1) l = n + (l.length + 1)
    rw [ih (n + 1)]
    omega

/-- C10: the `Count` reductor yields the same result on any two input
sequences of equal length, even over different item types — both on the
default-start run from the zero default state and on the non-empty run started
with `new`: the count depends only on the number of items processed, never on
their values. -/
theorem count_depends_only_on_length (A B : Type) (xs : List A) (ys : List B)
    (h : xs.length = ys.length) :
    (countReductor A).runFrom countStateDefault xs
        = (countReductor B).runFrom countStateDefault ys ∧
      ∀ (i1 : A) (j1 : B),
        (countReductor A).run i1 xs = (countReductor B).run j1 ys := by
  constructor
  · show Count.mk (List.foldl (countReductor A).reduce countStateDefault xs)
      = Count.mk (List.foldl (countReductor B).reduce countStateDefault ys)
    rw [count_foldl, count_foldl, h]
  · intro i1 j1
    show Count.mk (List.foldl (countReductor A).reduce ((countReductor A).new i1) xs)
      = Count.mk (List.foldl (countReductor B).reduce ((countReductor B).new j1) ys)
    rw [count_foldl, count_foldl, h]
    rfl

/-- C10 witness: `Count` at the concrete equal-length sequences [7, 9] (over
Nat) and [true, false] (over Bool). -/
theorem count_depends_only_on_length_witness :
    ([7, 9] : List Nat).length = ([true, false] : List Bool).length ∧
      (countReductor Nat).runFrom countStateDefault [7, 9]
        = (countReductor Bool).runFrom countStateDefault [true, false] :=
  ⟨rfl, (count_depends_only_on_length Nat Bool [7, 9] [true, false] rfl).1⟩

end reductor
